import Mathlib

/-!
Shallow embedding of `src/main.py` of the Marketlive repository: a news
ingestion pipeline with URL/content deduplication, batched importance
classification through a pluggable backend, a threshold filter, and a
WebSocket broadcast hub.

Modelling conventions:
* A Python dict-shaped raw article is a structure of `Option String`
  fields, one per accepted key alias; `dict.get(k, d)` becomes
  `Option.getD`, and Python's string-falsy `a or b` becomes `pyOr`.
* Scores (Python floats used only for comparison against the constant
  threshold `7.0`) are rationals.
* `hashlib.md5(content).hexdigest()` is deterministic in the content
  string, so the fingerprint is modelled as the content string itself
  (`get_content_hash` keeps the lowercasing/trimming/concatenation that
  the source performs before hashing); fingerprint equality in the
  claims is content-key equality here.
* Python `set`s of strings are duplicate-free lists with `List.insert`.
* Network effects (the classification backend call, WebSocket sends) are
  parameters: the backend response and the per-subscriber send outcome
  are inputs to the embedded functions, and a raised-and-caught
  exception is an `Option.none` response.
-/

namespace Marketlive

/-- Python `a or b` on strings: the empty string is falsy. -/
def pyOr (a b : String) : String := if a = "" then b else a

/-- Python `str.lower()`: lowercase every character. -/
def pyLower (s : String) : String := ⟨s.data.map Char.toLower⟩

/-- Python `str.strip()`: remove leading and trailing whitespace. -/
def pyStrip (s : String) : String :=
  ⟨((s.data.dropWhile Char.isWhitespace).reverse.dropWhile
      Char.isWhitespace).reverse⟩

/-- Line 26 of the source: `IMPORTANCE_THRESHOLD = 7.0`. -/
def IMPORTANCE_THRESHOLD : ℚ := 7

/-- A raw upstream record, one optional field per accepted key alias
(`headline`/`title`, `summary`/`description`, `url`/`article_url`,
`source`); `none` models an absent dict key. -/
structure RawArticle where
  headline : Option String := none
  title : Option String := none
  summary : Option String := none
  description : Option String := none
  url : Option String := none
  article_url : Option String := none
  source : Option String := none
deriving DecidableEq, Repr

/-- Python `article.get('headline', '') or article.get('title', '')`. -/
def extractHeadline (a : RawArticle) : String :=
  pyOr (a.headline.getD "") (a.title.getD "")

/-- Python `article.get('summary', '') or article.get('description', '')`. -/
def extractSummary (a : RawArticle) : String :=
  pyOr (a.summary.getD "") (a.description.getD "")

/-- Python `article.get('url') or article.get('article_url', '')` (a missing
`url` key yields `None`, which is falsy exactly like `''`). -/
def extractUrl (a : RawArticle) : String :=
  pyOr (a.url.getD "") (a.article_url.getD "")

/-- Python `article.get('source', 'Unknown')`. -/
def extractSource (a : RawArticle) : String :=
  a.source.getD "Unknown"

/-- The module-level Seen-State: `seen_urls` and `seen_content_hashes`
(Python sets of strings, modelled as duplicate-free lists). -/
structure SeenState where
  seen_urls : List String := []
  seen_content_hashes : List String := []
deriving DecidableEq, Repr

/-- Source `get_content_hash` (lines 87-90): the md5 digest of
`f"{headline.lower().strip()} {summary.lower().strip()}"`; the digest is
modelled by the hashed content string itself. -/
def get_content_hash (headline : String) (summary : String) : String :=
  pyStrip (pyLower headline) ++ " " ++ pyStrip (pyLower summary)

/-- Source `is_duplicate_content` (lines 92-98): returns whether the content
hash was already seen, adding it to the seen set when it was not.
The returned list is the updated `seen_content_hashes`. -/
def is_duplicate_content (headline : String) (summary : String)
    (seen_content_hashes : List String) : Bool × List String :=
  let content_hash := get_content_hash headline summary
  if content_hash ∈ seen_content_hashes then (true, seen_content_hashes)
  else (false, seen_content_hashes.insert content_hash)

/-- One iteration of the dedup loop of `process_articles_batch`
(lines 315-333): extract fields, drop records missing headline or URL,
reject seen URLs, reject seen content hashes (recording the hash via
`is_duplicate_content`), and on admission record the URL. Returns the
admit decision and the updated Seen-State. -/
def dedupStep (st : SeenState) (a : RawArticle) : Bool × SeenState :=
  let headline := extractHeadline a
  let summary := extractSummary a
  let article_url := extractUrl a
  if headline = "" ∨ article_url = "" then (false, st)
  else if article_url ∈ st.seen_urls then (false, st)
  else
    match is_duplicate_content headline summary st.seen_content_hashes with
    | (true, hashes) => (false, { st with seen_content_hashes := hashes })
    | (false, hashes) =>
        (true, { seen_urls := st.seen_urls.insert article_url,
                 seen_content_hashes := hashes })

/-- The dedup filter pass of `process_articles_batch` (lines 314-333):
feeds each raw record to `dedupStep` in order, keeping admitted ones in
their original relative order; returns `new_articles` and the final
Seen-State. -/
def dedupBatch (st : SeenState) : List RawArticle → List RawArticle × SeenState
  | [] => ([], st)
  | a :: rest =>
    let p := dedupStep st a
    let q := dedupBatch p.2 rest
    (if p.1 then a :: q.1 else q.1, q.2)

/-- The admit decision for each record of a sequence of presentations
starting from Seen-State `st`, in order (state threads through). -/
def dedupDecisions (st : SeenState) : List RawArticle → List Bool
  | [] => []
  | a :: rest =>
    let p := dedupStep st a
    p.1 :: dedupDecisions p.2 rest

/-- The Seen-State after presenting a sequence of records from `st`. -/
def stateAfter (st : SeenState) (articles : List RawArticle) : SeenState :=
  (dedupBatch st articles).2

/-- The admit decision for the record at position `i` of a sequence of
presentations starting from `st`. -/
def admitAt (st : SeenState) (articles : List RawArticle) (i : ℕ) : Bool :=
  (dedupStep (stateAfter st (articles.take i)) (articles.getD i {})).1

/-- A parsed classification entry as `process_articles_batch` consumes
it: a dict whose fields may each be absent (`none`), read with
`dict.get` defaults at lines 351-360. -/
structure Classification where
  article_id : Option ℤ := none
  importance_score : Option ℚ := none
  summary : Option String := none
  is_english : Option Bool := none
deriving DecidableEq, Repr

/-- One entry of the pydantic `ArticleClassification` model (lines
41-45): every field is present, the schema being enforced by the
structured-output parse. -/
structure ArticleClassification where
  article_id : ℤ
  importance_score : ℚ
  summary : String
  is_english : Bool
deriving DecidableEq, Repr

/-- Source `classify_news_batch_openai` (lines 101-178). The backend call is
an input: `resp = none` models a raised exception or a response without
a valid `classifications` structure (both return `[]`); `resp = some cs`
models a successfully parsed `BatchClassificationResponse`, whose
entries are copied into result dicts one-for-one, in order. -/
def classify_news_batch_openai (articles : List RawArticle)
    (openai_client : Bool) (resp : Option (List ArticleClassification)) :
    List Classification :=
  if articles = [] ∨ openai_client = false then []
  else
    match resp with
    | none => []
    | some cs =>
        cs.map (fun c =>
          { article_id := some c.article_id,
            importance_score := some c.importance_score,
            summary := some c.summary,
            is_english := some c.is_english })

/-- The Llama HTTP response as `classify_news_batch_llama` sees it:
`none` is a raised transport exception; otherwise a status code
together with the parse outcome of the response text (`none` when
`json.loads` raises). -/
def LlamaResp : Type := Option (ℕ × Option (List Classification))

/-- Source `classify_news_batch_llama` (lines 189-244): empty input or any
failure (transport exception, non-200 status, JSON parse failure) yields
`[]`; a parsed 200 response is returned as-is. -/
def classify_news_batch_llama (articles : List RawArticle)
    (resp : LlamaResp) : List Classification :=
  if articles = [] then []
  else
    match resp with
    | none => []
    | some (status_code, body) =>
        if status_code = 200 then
          match body with
          | none => []
          | some results => results
        else []

/-- The JSON object broadcast for one qualifying article (lines
373-380). -/
structure Payload where
  headline : String
  source : String
  url : String
  importance_score : ℚ
  summary : String
  timestamp : ℤ
deriving DecidableEq, Repr

/-- The payload built at lines 373-380 for the article at position `j`
whose classification passed the language and threshold checks. -/
def mkPayload (article : RawArticle) (importance_score : ℚ)
    (ai_summary : String) (now : ℤ) : Payload :=
  { headline := extractHeadline article,
    source := extractSource article,
    url := extractUrl article,
    importance_score := importance_score,
    summary := ai_summary,
    timestamp := now }

/-- The result-processing loop of `process_articles_batch` (lines
345-386): iterate over the classifications with index `j`, break once
`j` runs past `new_articles`, skip an entry whose declared
`article_id` (default `j + 1`) is misaligned, drop non-English entries
(default English), and broadcast a payload exactly when the score
(default `0.0`) reaches the threshold. Returns broadcast payloads in
order. -/
def processLoop (new_articles : List RawArticle) (now : ℤ) :
    ℕ → List Classification → List Payload
  | _, [] => []
  | j, c :: rest =>
    if h : j < new_articles.length then
      if c.article_id.getD ((j : ℤ) + 1) - 1 ≠ (j : ℤ) then
        processLoop new_articles now (j + 1) rest
      else if c.is_english.getD true = false then
        processLoop new_articles now (j + 1) rest
      else if IMPORTANCE_THRESHOLD ≤ c.importance_score.getD 0 then
        mkPayload new_articles[j] (c.importance_score.getD 0)
            (c.summary.getD "No summary available") now ::
          processLoop new_articles now (j + 1) rest
      else
        processLoop new_articles now (j + 1) rest
    else []

/-- Source `process_articles_batch` (lines 308-388): dedup the batch, stop if
nothing survived, call the classification backend once on the admitted
list, and run the result-processing loop. `backend` abstracts
`classify_news_batch`; returns the broadcast payloads and the updated
Seen-State. -/
def process_articles_batch (st : SeenState) (articles : List RawArticle)
    (backend : List RawArticle → List Classification) (now : ℤ) :
    List Payload × SeenState :=
  if articles = [] then ([], st)
  else
    let p := dedupBatch st articles
    if p.1 = [] then ([], p.2)
    else (processLoop p.1 now 0 (backend p.1), p.2)

/-- Source `ConnectionManager.broadcast` delivery loop (lines 71-75): try
each current connection in turn; `sendOk` tells whether
`connection.send_text` succeeds for a given subscriber. Returns the
subscribers actually delivered to and the `disconnected` set collected
from failed sends. -/
def broadcastLoop (sendOk : ℕ → Bool) :
    List ℕ → List ℕ × List ℕ
  | [] => ([], [])
  | c :: rest =>
    let q := broadcastLoop sendOk rest
    if sendOk c then (c :: q.1, q.2)
    else (q.1, c :: q.2)

/-- Source `ConnectionManager.broadcast` (lines 64-79): no-op on an empty
subscriber set; otherwise deliver to every current subscriber, then
discard every subscriber whose send failed. Subscribers are identified
by a connection identity (`ℕ`); returns the delivered list and the
subscriber set after the broadcast. -/
def ConnectionManager.broadcast (active_connections : List ℕ)
    (sendOk : ℕ → Bool) : List ℕ × List ℕ :=
  if active_connections = [] then ([], active_connections)
  else
    let q := broadcastLoop sendOk active_connections
    (q.1, active_connections.filter (fun c => decide (c ∉ q.2)))

/-- The content fingerprint of a raw record, as the dedup loop computes
it: `get_content_hash` over the extracted headline and summary. -/
def contentKey (a : RawArticle) : String :=
  get_content_hash (extractHeadline a) (extractSummary a)

/-- Componentwise growth of Seen-State: every seen URL and every seen
content hash of `s` is still seen in `t`. -/
def SeenState.Grows (s t : SeenState) : Prop :=
  s.seen_urls ⊆ t.seen_urls ∧ s.seen_content_hashes ⊆ t.seen_content_hashes

/-- A sample valid raw record (headline and canonical URL present). -/
def sampleA : RawArticle :=
  { headline := some "Fed cuts rates", url := some "https://e.com/a" }

/-- A second sample valid raw record, distinct URL and content. -/
def sampleB : RawArticle :=
  { headline := some "ECB holds rates", url := some "https://e.com/b" }

/-- A record with the same content as `sampleA` under the alias keys
`title`/`article_url`, but a different URL. -/
def sampleDupA : RawArticle :=
  { title := some "Fed cuts rates", article_url := some "https://e.com/c" }

/-- A record missing any URL key. -/
def sampleNoUrl : RawArticle :=
  { headline := some "Headline only" }

theorem SeenState.Grows.rfl (s : SeenState) : SeenState.Grows s s :=
  ⟨List.Subset.refl _, List.Subset.refl _⟩

theorem SeenState.Grows.trans {s t u : SeenState}
    (h1 : SeenState.Grows s t) (h2 : SeenState.Grows t u) :
    SeenState.Grows s u :=
  ⟨h1.1.trans h2.1, h1.2.trans h2.2⟩

/-- Characterization: `dedupStep` admits exactly the records with nonempty extracted
headline and URL whose URL and content hash are both unseen. -/
theorem dedupStep_fst_iff (st : SeenState) (a : RawArticle) :
    (dedupStep st a).1 = true ↔
      extractHeadline a ≠ "" ∧ extractUrl a ≠ "" ∧
      extractUrl a ∉ st.seen_urls ∧ contentKey a ∉ st.seen_content_hashes := by
  unfold dedupStep is_duplicate_content
  by_cases hh : extractHeadline a = "" ∨ extractUrl a = ""
  · simp only [hh, if_true]
    simp
    intro h1 h2
    rcases hh with h | h <;> simp_all
  · push_neg at hh
    simp only [hh, or_self, if_false]
    by_cases hu : extractUrl a ∈ st.seen_urls
    · simp [hu, hh.1, hh.2]
    · by_cases hc : get_content_hash (extractHeadline a) (extractSummary a) ∈
          st.seen_content_hashes
      · simp [hu, hc, contentKey, hh.1, hh.2]
      · simp [hu, hc, contentKey, hh.1, hh.2]

/-- When `dedupStep` rejects a record, the Seen-State is returned
unchanged. -/
theorem dedupStep_snd_of_reject {st : SeenState} {a : RawArticle}
    (h : (dedupStep st a).1 = false) : (dedupStep st a).2 = st := by
  unfold dedupStep is_duplicate_content at *
  by_cases hh : extractHeadline a = "" ∨ extractUrl a = ""
  · simp [hh]
  · push_neg at hh
    simp only [hh, or_self, if_false] at *
    by_cases hu : extractUrl a ∈ st.seen_urls
    · simp [hu]
    · by_cases hc : get_content_hash (extractHeadline a) (extractSummary a) ∈
          st.seen_content_hashes
      · simp [hu, hc]
      · simp [hu, hc] at h

/-- When `dedupStep` admits a record, the Seen-State gains exactly that
record's URL and content hash. -/
theorem dedupStep_snd_admitted {st : SeenState} {a : RawArticle}
    (h : (dedupStep st a).1 = true) :
    (dedupStep st a).2 =
      { seen_urls := st.seen_urls.insert (extractUrl a),
        seen_content_hashes := st.seen_content_hashes.insert (contentKey a) } := by
  rw [dedupStep_fst_iff] at h
  unfold dedupStep is_duplicate_content
  simp only [h.1, h.2.1, or_self]
  rw [if_neg (by simp [h.1, h.2.1]), if_neg h.2.2.1]
  have hc : get_content_hash (extractHeadline a) (extractSummary a) ∉
      st.seen_content_hashes := h.2.2.2
  simp [hc, contentKey]

/-- Monotonicity: `dedupStep` never removes anything from Seen-State. -/
theorem dedupStep_grows (st : SeenState) (a : RawArticle) :
    SeenState.Grows st (dedupStep st a).2 := by
  by_cases h : (dedupStep st a).1 = true
  · rw [dedupStep_snd_admitted h]
    exact ⟨List.subset_insert _ _, List.subset_insert _ _⟩
  · rw [dedupStep_snd_of_reject (Bool.eq_false_iff.mpr h)]
    exact SeenState.Grows.rfl st

/-- A record rejected from `st` stays rejected from any grown state. -/
theorem dedupStep_reject_stable {st st' : SeenState} {a : RawArticle}
    (h : (dedupStep st a).1 = false) (hg : SeenState.Grows st st') :
    (dedupStep st' a).1 = false := by
  rw [Bool.eq_false_iff] at *
  intro hmem
  apply h
  rw [dedupStep_fst_iff] at *
  refine ⟨hmem.1, hmem.2.1, fun hu => hmem.2.2.1 (hg.1 hu),
    fun hc => hmem.2.2.2 (hg.2 hc)⟩

theorem stateAfter_nil (st : SeenState) : stateAfter st [] = st := rfl

theorem stateAfter_cons (st : SeenState) (a : RawArticle)
    (l : List RawArticle) :
    stateAfter st (a :: l) = stateAfter (dedupStep st a).2 l := rfl

theorem stateAfter_append (st : SeenState) (l1 l2 : List RawArticle) :
    stateAfter st (l1 ++ l2) = stateAfter (stateAfter st l1) l2 := by
  induction l1 generalizing st with
  | nil => rfl
  | cons a rest ih =>
    rw [List.cons_append, stateAfter_cons, ih, stateAfter_cons]

theorem grows_stateAfter (st : SeenState) (l : List RawArticle) :
    SeenState.Grows st (stateAfter st l) := by
  induction l generalizing st with
  | nil => exact SeenState.Grows.rfl st
  | cons a rest ih =>
    rw [stateAfter_cons]
    exact (dedupStep_grows st a).trans (ih _)

theorem grows_stateAfter_take (st : SeenState) (articles : List RawArticle)
    {m n : ℕ} (h : m ≤ n) :
    SeenState.Grows (stateAfter st (articles.take m))
      (stateAfter st (articles.take n)) := by
  have h1 : articles.take n =
      articles.take m ++ (articles.drop m).take (n - m) := by
    rw [← List.take_add]
    congr 1
    omega
  rw [h1, stateAfter_append]
  exact grows_stateAfter _ _

theorem dedupStep_default (st : SeenState) : dedupStep st {} = (false, st) := by
  simp [dedupStep, extractHeadline, extractUrl, extractSummary, pyOr]

theorem stateAfter_take_succ (st : SeenState) (articles : List RawArticle)
    (i : ℕ) (h : i < articles.length) :
    stateAfter st (articles.take (i + 1)) =
      (dedupStep (stateAfter st (articles.take i)) (articles.getD i {})).2 := by
  rw [List.take_succ, List.getElem?_eq_getElem h, stateAfter_append]
  rw [Option.toList_some, stateAfter_cons, stateAfter_nil,
    List.getD_eq_getElem articles {} h]

/-- C1: over any sequence of presentations, two records with equal
canonical URL or equal content fingerprint are never both admitted by
the dedup filter, and presenting the same record twice never admits the
second presentation. -/
theorem dedup_at_most_one (st : SeenState) (articles : List RawArticle)
    (i j : ℕ) (hij : i < j)
    (hkey : extractUrl (articles.getD i {}) = extractUrl (articles.getD j {}) ∨
      contentKey (articles.getD i {}) = contentKey (articles.getD j {})) :
    (¬(admitAt st articles i = true ∧ admitAt st articles j = true)) ∧
    (articles.getD i {} = articles.getD j {} →
      admitAt st articles j = false) := by
  have hgrow_ij : SeenState.Grows (stateAfter st (articles.take i))
      (stateAfter st (articles.take j)) :=
    grows_stateAfter_take st articles (le_of_lt hij)
  have key1 : ¬(admitAt st articles i = true ∧ admitAt st articles j = true) := by
    rintro ⟨h1, h2⟩
    have hi : i < articles.length := by
      by_contra hi
      rw [admitAt, List.getD_eq_default _ _ (by omega), dedupStep_default] at h1
      exact Bool.false_ne_true h1
    have hstep1 : (dedupStep (stateAfter st (articles.take i))
        (articles.getD i {})).2 =
        { seen_urls := (stateAfter st (articles.take i)).seen_urls.insert
            (extractUrl (articles.getD i {})),
          seen_content_hashes :=
            (stateAfter st (articles.take i)).seen_content_hashes.insert
              (contentKey (articles.getD i {})) } :=
      dedupStep_snd_admitted h1
    have hgrow : SeenState.Grows
        (dedupStep (stateAfter st (articles.take i)) (articles.getD i {})).2
        (stateAfter st (articles.take j)) := by
      rw [← stateAfter_take_succ st articles i hi]
      exact grows_stateAfter_take st articles (by omega)
    rw [admitAt, dedupStep_fst_iff] at h2
    rcases hkey with hk | hk
    · apply h2.2.2.1
      apply hgrow.1
      rw [hstep1, ← hk]
      exact List.mem_insert_self _ _
    · apply h2.2.2.2
      apply hgrow.2
      rw [hstep1, ← hk]
      exact List.mem_insert_self _ _
  refine ⟨key1, fun heq => ?_⟩
  by_cases h1 : admitAt st articles i = true
  · by_contra h2
    rw [Bool.not_eq_false] at h2
    exact key1 ⟨h1, h2⟩
  · rw [Bool.not_eq_true] at h1
    rw [admitAt] at h1 ⊢
    rw [← heq]
    exact dedupStep_reject_stable h1 hgrow_ij

/-- Witness for C1 at a concrete input: the same record presented
twice; the first presentation is admitted, the second is not. -/
theorem dedup_at_most_one_witness :
    admitAt {} [sampleA, sampleA] 0 = true ∧
    admitAt {} [sampleA, sampleA] 1 = false ∧
    ¬(admitAt {} [sampleA, sampleA] 0 = true ∧
      admitAt {} [sampleA, sampleA] 1 = true) :=
  ⟨by decide,
   (dedup_at_most_one {} [sampleA, sampleA] 0 1 (by decide) (Or.inl rfl)).2 rfl,
   (dedup_at_most_one {} [sampleA, sampleA] 0 1 (by decide) (Or.inl rfl)).1⟩

/-- C2: for a record with headline and URL present, the dedup filter
admits it iff its URL is unseen and its content fingerprint is unseen;
admission inserts exactly both keys into Seen-State, and afterwards any
record repeating either key is rejected from any later (grown) state. -/
theorem dedup_admit_iff (st : SeenState) (a : RawArticle)
    (hh : extractHeadline a ≠ "") (hu : extractUrl a ≠ "") :
    ((dedupStep st a).1 = true ↔
      extractUrl a ∉ st.seen_urls ∧ contentKey a ∉ st.seen_content_hashes) ∧
    ((dedupStep st a).1 = true →
      (dedupStep st a).2 =
        { seen_urls := st.seen_urls.insert (extractUrl a),
          seen_content_hashes := st.seen_content_hashes.insert (contentKey a) }) ∧
    (∀ b : RawArticle,
      (extractUrl b = extractUrl a ∨ contentKey b = contentKey a) →
      (dedupStep st a).1 = true →
      ∀ st' : SeenState, SeenState.Grows (dedupStep st a).2 st' →
        (dedupStep st' b).1 = false) := by
  refine ⟨?_, fun h => dedupStep_snd_admitted h, ?_⟩
  · rw [dedupStep_fst_iff]
    simp [hh, hu]
  · intro b hb hadm st' hg
    rw [Bool.eq_false_iff]
    intro htrue
    rw [dedupStep_fst_iff] at htrue
    have hins := dedupStep_snd_admitted hadm
    rcases hb with hk | hk
    · apply htrue.2.2.1
      apply hg.1
      rw [hins, hk]
      exact List.mem_insert_self _ _
    · apply htrue.2.2.2
      apply hg.2
      rw [hins, hk]
      exact List.mem_insert_self _ _

/-- Witness for C2: a valid record is admitted from the empty
Seen-State. -/
theorem dedup_admit_iff_witness : (dedupStep {} sampleA).1 = true :=
  ((dedup_admit_iff {} sampleA (by decide) (by decide)).1).mpr (by decide)

/-- C9: a rejected record leaves Seen-State exactly unchanged; an
admitted record adds exactly its URL and fingerprint; in particular a
fresh URL carrying an already-seen fingerprint is rejected with its URL
left unrecorded. -/
theorem dedup_reject_unchanged (st : SeenState) (a : RawArticle) :
    ((dedupStep st a).1 = false → (dedupStep st a).2 = st) ∧
    ((dedupStep st a).1 = true →
      (dedupStep st a).2 =
        { seen_urls := st.seen_urls.insert (extractUrl a),
          seen_content_hashes := st.seen_content_hashes.insert (contentKey a) }) ∧
    (extractUrl a ∉ st.seen_urls → contentKey a ∈ st.seen_content_hashes →
      (dedupStep st a).1 = false ∧
      extractUrl a ∉ (dedupStep st a).2.seen_urls) := by
  refine ⟨fun h => dedupStep_snd_of_reject h,
    fun h => dedupStep_snd_admitted h, fun hu hc => ?_⟩
  have hrej : (dedupStep st a).1 = false := by
    rw [Bool.eq_false_iff]
    intro htrue
    rw [dedupStep_fst_iff] at htrue
    exact htrue.2.2.2 hc
  refine ⟨hrej, ?_⟩
  rw [dedupStep_snd_of_reject hrej]
  exact hu

/-- Witness for C9: a fresh URL whose content fingerprint is already
seen is rejected and Seen-State is exactly unchanged. -/
theorem dedup_reject_unchanged_witness :
    (dedupStep
        { seen_urls := [], seen_content_hashes := [contentKey sampleA] }
        sampleA).2 =
      { seen_urls := [], seen_content_hashes := [contentKey sampleA] } :=
  (dedup_reject_unchanged
    { seen_urls := [], seen_content_hashes := [contentKey sampleA] }
    sampleA).1 (by decide)

theorem broadcastLoop_mem_delivered {sendOk : ℕ → Bool} {c : ℕ}
    {active : List ℕ} (hc : c ∈ active) (h : sendOk c = true) :
    c ∈ (broadcastLoop sendOk active).1 := by
  induction active with
  | nil => cases hc
  | cons d rest ih =>
    rcases List.mem_cons.mp hc with rfl | hmem
    · simp [broadcastLoop, h]
    · by_cases hd : sendOk d = true
      · simp [broadcastLoop, hd]
        right
        exact ih hmem
      · rw [Bool.not_eq_true] at hd
        simp [broadcastLoop, hd]
        exact ih hmem

theorem broadcastLoop_mem_disconnected {sendOk : ℕ → Bool} {c : ℕ}
    {active : List ℕ} (hc : c ∈ active) (h : sendOk c = false) :
    c ∈ (broadcastLoop sendOk active).2 := by
  induction active with
  | nil => cases hc
  | cons d rest ih =>
    rcases List.mem_cons.mp hc with rfl | hmem
    · simp [broadcastLoop, h]
    · by_cases hd : sendOk d = true
      · simp [broadcastLoop, hd]
        exact ih hmem
      · rw [Bool.not_eq_true] at hd
        simp [broadcastLoop, hd]
        right
        exact ih hmem

/-- C7: a broadcast delivers to every current subscriber whose send
succeeds, regardless of other subscribers failing, and every subscriber
whose send fails is absent from the subscriber set when the broadcast
returns. -/
theorem broadcast_isolation (active : List ℕ) (sendOk : ℕ → Bool)
    (c : ℕ) (hc : c ∈ active) :
    (sendOk c = true → c ∈ (ConnectionManager.broadcast active sendOk).1) ∧
    (sendOk c = false → c ∉ (ConnectionManager.broadcast active sendOk).2) := by
  have hne : active ≠ [] := by
    intro h
    rw [h] at hc
    cases hc
  constructor
  · intro h
    unfold ConnectionManager.broadcast
    rw [if_neg hne]
    exact broadcastLoop_mem_delivered hc h
  · intro h
    unfold ConnectionManager.broadcast
    rw [if_neg hne]
    intro hmem
    have := (List.mem_filter.mp hmem).2
    rw [decide_eq_true_iff] at this
    exact this (broadcastLoop_mem_disconnected (List.mem_filter.mp hmem).1 h)

/-- Witness for C7: subscriber 2's send fails; subscriber 1 is still
delivered to, and 2 is gone from the set afterwards. -/
theorem broadcast_isolation_witness :
    1 ∈ (ConnectionManager.broadcast [1, 2] (fun c => decide (c ≠ 2))).1 ∧
    2 ∉ (ConnectionManager.broadcast [1, 2] (fun c => decide (c ≠ 2))).2 :=
  ⟨(broadcast_isolation [1, 2] (fun c => decide (c ≠ 2)) 1 (by decide)).1
      (by decide),
   (broadcast_isolation [1, 2] (fun c => decide (c ≠ 2)) 2 (by decide)).2
      (by decide)⟩

theorem processLoop_cons (new_articles : List RawArticle) (now : ℤ)
    (j : ℕ) (c : Classification) (rest : List Classification) :
    processLoop new_articles now j (c :: rest) =
      if h : j < new_articles.length then
        if c.article_id.getD ((j : ℤ) + 1) - 1 ≠ (j : ℤ) then
          processLoop new_articles now (j + 1) rest
        else if c.is_english.getD true = false then
          processLoop new_articles now (j + 1) rest
        else if IMPORTANCE_THRESHOLD ≤ c.importance_score.getD 0 then
          mkPayload new_articles[j] (c.importance_score.getD 0)
              (c.summary.getD "No summary available") now ::
            processLoop new_articles now (j + 1) rest
        else
          processLoop new_articles now (j + 1) rest
      else [] := rfl

theorem processLoop_oob {new_articles : List RawArticle} {now : ℤ} {j : ℕ}
    (h : new_articles.length ≤ j) (cls : List Classification) :
    processLoop new_articles now j cls = [] := by
  cases cls with
  | nil => rfl
  | cons c rest =>
    unfold processLoop
    rw [dif_neg (by omega)]

/-- Every payload the result-processing loop emits comes from an entry
at some offset `k` that is within both the classification list and the
admitted article list, passed the alignment and language checks, and
met the threshold. -/
theorem processLoop_mem_elim {new_articles : List RawArticle} {now : ℤ}
    {cls : List Classification} {p : Payload} :
    ∀ {j : ℕ}, p ∈ processLoop new_articles now j cls →
    ∃ k, k < cls.length ∧ j + k < new_articles.length ∧
      (cls.getD k {}).is_english.getD true = true ∧
      IMPORTANCE_THRESHOLD ≤ (cls.getD k {}).importance_score.getD 0 ∧
      p = mkPayload (new_articles.getD (j + k) {})
            ((cls.getD k {}).importance_score.getD 0)
            ((cls.getD k {}).summary.getD "No summary available") now := by
  induction cls with
  | nil =>
    intro j hp
    cases hp
  | cons c rest ih =>
    intro j hp
    unfold processLoop at hp
    by_cases h : j < new_articles.length
    · rw [dif_pos h] at hp
      by_cases hmis : c.article_id.getD ((j : ℤ) + 1) - 1 ≠ (j : ℤ)
      · rw [if_pos hmis] at hp
        obtain ⟨k, hk1, hk2, hk3, hk4, hk5⟩ := ih hp
        refine ⟨k + 1, by simpa using hk1, by omega, ?_, ?_, ?_⟩
        · rw [List.getD_cons_succ]
          exact hk3
        · rw [List.getD_cons_succ]
          exact hk4
        · rw [List.getD_cons_succ]
          have harr : j + (k + 1) = j + 1 + k := by omega
          rw [harr]
          exact hk5
      · rw [if_neg hmis] at hp
        by_cases heng : c.is_english.getD true = false
        · rw [if_pos heng] at hp
          obtain ⟨k, hk1, hk2, hk3, hk4, hk5⟩ := ih hp
          refine ⟨k + 1, by simpa using hk1, by omega, ?_, ?_, ?_⟩
          · rw [List.getD_cons_succ]
            exact hk3
          · rw [List.getD_cons_succ]
            exact hk4
          · rw [List.getD_cons_succ]
            have harr : j + (k + 1) = j + 1 + k := by omega
            rw [harr]
            exact hk5
        · rw [if_neg heng] at hp
          by_cases hth : IMPORTANCE_THRESHOLD ≤ c.importance_score.getD 0
          · rw [if_pos hth] at hp
            rcases List.mem_cons.mp hp with rfl | hp2
            · refine ⟨0, by simp, by omega, ?_, ?_, ?_⟩
              · rw [List.getD_cons_zero]
                rw [Bool.not_eq_false] at heng
                exact heng
              · rw [List.getD_cons_zero]
                exact hth
              · rw [List.getD_cons_zero, Nat.add_zero,
                  List.getD_eq_getElem new_articles {} h]
            · obtain ⟨k, hk1, hk2, hk3, hk4, hk5⟩ := ih hp2
              refine ⟨k + 1, by simpa using hk1, by omega, ?_, ?_, ?_⟩
              · rw [List.getD_cons_succ]
                exact hk3
              · rw [List.getD_cons_succ]
                exact hk4
              · rw [List.getD_cons_succ]
                have harr : j + (k + 1) = j + 1 + k := by omega
                rw [harr]
                exact hk5
          · rw [if_neg hth] at hp
            obtain ⟨k, hk1, hk2, hk3, hk4, hk5⟩ := ih hp
            refine ⟨k + 1, by simpa using hk1, by omega, ?_, ?_, ?_⟩
            · rw [List.getD_cons_succ]
              exact hk3
            · rw [List.getD_cons_succ]
              exact hk4
            · rw [List.getD_cons_succ]
              have harr : j + (k + 1) = j + 1 + k := by omega
              rw [harr]
              exact hk5
    · rw [dif_neg h] at hp
      cases hp

/-- C4: an article is broadcast only when its aligned classification
has English flag true and score at least the fixed threshold `7.0`;
the payload carries exactly that score. -/
theorem broadcast_only_qualifying (new_articles : List RawArticle)
    (now : ℤ) (cls : List Classification) (p : Payload)
    (hp : p ∈ processLoop new_articles now 0 cls) :
    IMPORTANCE_THRESHOLD ≤ p.importance_score ∧
    ∃ k, k < cls.length ∧
      (cls.getD k {}).is_english.getD true = true ∧
      p.importance_score = (cls.getD k {}).importance_score.getD 0 := by
  obtain ⟨k, hk1, hk2, hk3, hk4, hk5⟩ := processLoop_mem_elim hp
  subst hk5
  exact ⟨hk4, k, hk1, hk3, rfl⟩

/-- Witness for C4: a qualifying classification (score 9, English) is
broadcast and satisfies the thresholds. -/
theorem broadcast_only_qualifying_witness :
    IMPORTANCE_THRESHOLD ≤
      (mkPayload sampleA 9 "s" 5).importance_score :=
  (broadcast_only_qualifying [sampleA] 5
    [{ article_id := some 1, importance_score := some 9,
       summary := some "s", is_english := some true }]
    (mkPayload sampleA 9 "s" 5) (by decide)).1

/-- C6: a classification entry whose declared correlation id does not
match its expected sequential position is skipped as a single entry,
processing continuing with the rest of the batch; and every broadcast
payload comes from an article position within the classification list,
so trailing admitted articles beyond a truncated backend response are
dropped for the round. -/
theorem misalignment_skip_truncation (new_articles : List RawArticle)
    (now : ℤ) :
    (∀ (j : ℕ) (c : Classification) (rest : List Classification),
      c.article_id.getD ((j : ℤ) + 1) - 1 ≠ (j : ℤ) →
      processLoop new_articles now j (c :: rest) =
        processLoop new_articles now (j + 1) rest) ∧
    (∀ (cls : List Classification) (p : Payload),
      p ∈ processLoop new_articles now 0 cls →
      ∃ k, k < cls.length ∧ k < new_articles.length ∧
        p = mkPayload (new_articles.getD k {})
              ((cls.getD k {}).importance_score.getD 0)
              ((cls.getD k {}).summary.getD "No summary available") now) := by
  constructor
  · intro j c rest hmis
    by_cases h : j < new_articles.length
    · rw [processLoop_cons, dif_pos h, if_pos hmis]
    · rw [processLoop_oob (by omega), processLoop_oob (by omega)]
  · intro cls p hp
    obtain ⟨k, hk1, hk2, _, _, hk5⟩ := processLoop_mem_elim hp
    rw [Nat.zero_add] at hk2 hk5
    exact ⟨k, hk1, hk2, hk5⟩

/-- Witness for C6: an entry declaring id 5 at position 0 is skipped,
and with a single-entry response for a two-article batch the second
article is dropped. -/
theorem misalignment_skip_truncation_witness :
    processLoop [sampleA, sampleB] 5 0
      [{ article_id := some 5, importance_score := some 9,
         summary := some "s", is_english := some true },
       { article_id := some 2, importance_score := some 9,
         summary := some "t", is_english := some true }] =
      processLoop [sampleA, sampleB] 5 1
        [{ article_id := some 2, importance_score := some 9,
           summary := some "t", is_english := some true }] :=
  (misalignment_skip_truncation [sampleA, sampleB] 5).1 0
    { article_id := some 5, importance_score := some 9,
      summary := some "s", is_english := some true }
    [{ article_id := some 2, importance_score := some 9,
       summary := some "t", is_english := some true }]
    (by decide)

/-- C10: absent fields in a classification dict are defaulted, not
rejected: an absent correlation id defaults to the expected position
(alignment passes) and an absent English flag defaults to true, so such
an entry with a qualifying score is still broadcast; an absent score
defaults to `0.0`, so that entry is never broadcast. -/
theorem classification_defaults (new_articles : List RawArticle)
    (now : ℤ) (j : ℕ) (rest : List Classification) (s : String)
    (h : j < new_articles.length) :
    (∀ q : ℚ, IMPORTANCE_THRESHOLD ≤ q →
      processLoop new_articles now j
        ({ article_id := none, importance_score := some q,
           summary := some s, is_english := none } :: rest) =
        mkPayload new_articles[j] q s now ::
          processLoop new_articles now (j + 1) rest) ∧
    (processLoop new_articles now j
        ({ article_id := none, importance_score := none,
           summary := some s, is_english := some true } :: rest) =
      processLoop new_articles now (j + 1) rest) := by
  constructor
  · intro q hq
    rw [processLoop_cons, dif_pos h, if_neg (by simp), if_neg (by simp),
      if_pos (by simpa using hq)]
    simp
  · rw [processLoop_cons, dif_pos h, if_neg (by simp), if_neg (by simp),
      if_neg (by simp [IMPORTANCE_THRESHOLD])]

/-- Witness for C10: at position 0 of a one-article batch, an
all-defaulted entry with score 9 is broadcast; one with no score is
not. -/
theorem classification_defaults_witness :
    processLoop [sampleA] 5 0
      [{ article_id := none, importance_score := some 9,
         summary := some "s", is_english := none }] =
      [mkPayload sampleA 9 "s" 5] ∧
    processLoop [sampleA] 5 0
      [{ article_id := none, importance_score := none,
         summary := some "s", is_english := some true }] = [] :=
  ⟨(classification_defaults [sampleA] 5 0 [] "s" (by decide)).1 9 (by decide),
   (classification_defaults [sampleA] 5 0 [] "s" (by decide)).2⟩

theorem dedupBatch_cons (st : SeenState) (a : RawArticle)
    (rest : List RawArticle) :
    dedupBatch st (a :: rest) =
      (if (dedupStep st a).1 then
        a :: (dedupBatch (dedupStep st a).2 rest).1
       else (dedupBatch (dedupStep st a).2 rest).1,
       (dedupBatch (dedupStep st a).2 rest).2) := rfl

theorem process_articles_batch_eq (st : SeenState)
    (articles : List RawArticle)
    (backend : List RawArticle → List Classification) (now : ℤ) :
    process_articles_batch st articles backend now =
      if articles = [] then ([], st)
      else if (dedupBatch st articles).1 = [] then
        ([], (dedupBatch st articles).2)
      else
        (processLoop (dedupBatch st articles).1 now 0
          (backend (dedupBatch st articles).1),
         (dedupBatch st articles).2) := rfl

/-- Everything the dedup filter admits has a nonempty extracted
headline and a nonempty extracted URL. -/
theorem dedupBatch_mem_valid {st : SeenState} {articles : List RawArticle}
    {b : RawArticle} (hb : b ∈ (dedupBatch st articles).1) :
    extractHeadline b ≠ "" ∧ extractUrl b ≠ "" := by
  induction articles generalizing st with
  | nil => cases hb
  | cons a rest ih =>
    rw [dedupBatch_cons] at hb
    by_cases hstep : (dedupStep st a).1 = true
    · rw [if_pos hstep] at hb
      rcases List.mem_cons.mp hb with rfl | hb2
      · have := (dedupStep_fst_iff st b).mp hstep
        exact ⟨this.1, this.2.1⟩
      · exact ih hb2
    · rw [Bool.not_eq_true] at hstep
      rw [hstep, if_neg (Bool.false_ne_true)] at hb
      exact ih hb

/-- C5: a failed or malformed backend call yields the empty
classification list rather than raising (the embedded functions are
total): a raised exception or invalid response structure in the OpenAI
path, and a transport exception, non-200 status, or JSON parse failure
in the Llama path, all return `[]`; and a round whose backend yields
`[]` broadcasts nothing. -/
theorem backend_failure_yields_empty (articles : List RawArticle) :
    (∀ oc : Bool, classify_news_batch_openai articles oc none = []) ∧
    (classify_news_batch_llama articles none = []) ∧
    (∀ (status_code : ℕ) (body : Option (List Classification)),
      status_code ≠ 200 →
      classify_news_batch_llama articles (some (status_code, body)) = []) ∧
    (classify_news_batch_llama articles (some (200, none)) = []) ∧
    (∀ (st : SeenState) (now : ℤ),
      (process_articles_batch st articles (fun _ => []) now).1 = []) := by
  refine ⟨?_, ?_, ?_, ?_, ?_⟩
  · intro oc
    unfold classify_news_batch_openai
    split <;> rfl
  · unfold classify_news_batch_llama
    split <;> rfl
  · intro status_code body hs
    unfold classify_news_batch_llama
    split
    · rfl
    · simp [hs]
  · unfold classify_news_batch_llama
    split <;> rfl
  · intro st now
    rw [process_articles_batch_eq]
    split
    · rfl
    · split
      · rfl
      · rfl

/-- Witness for C5: a 500 status with a parseable body still yields no
classifications. -/
theorem backend_failure_yields_empty_witness :
    classify_news_batch_llama [sampleA]
      (some (500, some [{ article_id := some 1 }])) = [] :=
  (backend_failure_yields_empty [sampleA]).2.2.1 500
    (some [{ article_id := some 1 }]) (by decide)

/-- C8: a raw record whose headline or URL is absent or empty under all
accepted aliases is dropped: its `dedupStep` leaves Seen-State exactly
unchanged and rejects it, it never appears among the admitted articles
handed to classification, and every broadcast payload carries a
nonempty headline and URL; the embedded pipeline is total, so the drop
cannot raise. -/
theorem invalid_record_dropped (st : SeenState) (a : RawArticle)
    (ha : extractHeadline a = "" ∨ extractUrl a = "") :
    dedupStep st a = (false, st) ∧
    (∀ articles : List RawArticle, a ∉ (dedupBatch st articles).1) ∧
    (∀ (articles : List RawArticle)
      (backend : List RawArticle → List Classification) (now : ℤ),
      ∀ p ∈ (process_articles_batch st articles backend now).1,
        p.headline ≠ "" ∧ p.url ≠ "") := by
  refine ⟨?_, ?_, ?_⟩
  · unfold dedupStep
    rw [if_pos ha]
  · intro articles hmem
    have hvalid := dedupBatch_mem_valid hmem
    rcases ha with h | h
    · exact hvalid.1 h
    · exact hvalid.2 h
  · intro articles backend now p hp
    rw [process_articles_batch_eq] at hp
    by_cases h1 : articles = []
    · rw [if_pos h1] at hp
      cases hp
    · rw [if_neg h1] at hp
      by_cases h2 : (dedupBatch st articles).1 = []
      · rw [if_pos h2] at hp
        cases hp
      · rw [if_neg h2] at hp
        obtain ⟨k, hk1, hk2, _, _, hk5⟩ := processLoop_mem_elim hp
        rw [Nat.zero_add] at hk2 hk5
        have hmem : (dedupBatch st articles).1.getD k {} ∈
            (dedupBatch st articles).1 := by
          rw [List.getD_eq_getElem _ {} hk2]
          exact List.getElem_mem hk2
        have hvalid := dedupBatch_mem_valid hmem
        subst hk5
        exact hvalid

/-- Witness for C8: a record with no URL key is rejected with the
Seen-State untouched and is absent from the admitted list. -/
theorem invalid_record_dropped_witness :
    dedupStep {} sampleNoUrl = (false, {}) ∧
    sampleNoUrl ∉ (dedupBatch {} [sampleNoUrl, sampleA]).1 :=
  ⟨(invalid_record_dropped {} sampleNoUrl (Or.inr (by decide))).1,
   (invalid_record_dropped {} sampleNoUrl (Or.inr (by decide))).2.1
     [sampleNoUrl, sampleA]⟩

/-- C3 counterexample: with two input articles and a successfully
parsed backend response containing a single entry, both gateway
backends return a one-element result list — neither the input length
nor empty, refuting "same length or else empty". -/
theorem classify_length_counterexample :
    (classify_news_batch_openai [sampleA, sampleB] true
        (some [{ article_id := 1, importance_score := 8, summary := "s",
                 is_english := true }])).length = 1 ∧
    (classify_news_batch_llama [sampleA, sampleB]
        (some (200, some [{ article_id := some 1 }]))).length = 1 ∧
    ([sampleA, sampleB] : List RawArticle).length = 2 ∧
    classify_news_batch_openai [sampleA, sampleB] true
        (some [{ article_id := 1, importance_score := 8, summary := "s",
                 is_english := true }]) ≠ [] := by
  refine ⟨rfl, rfl, rfl, ?_⟩
  decide

/-- C3 amended: on a backend failure (or empty input, or a missing
client) the gateway returns the empty result list; on a parsed backend
response it returns exactly one result per response entry, in response
order — so the output has the input's length exactly when the backend
answered one entry per article, an equality the gateway itself never
enforces. -/
theorem classify_shape (articles : List RawArticle) (oc : Bool)
    (cs : List ArticleClassification) :
    (classify_news_batch_openai articles oc none = []) ∧
    (articles ≠ [] → oc = true →
      classify_news_batch_openai articles oc (some cs) =
        cs.map (fun c =>
          { article_id := some c.article_id,
            importance_score := some c.importance_score,
            summary := some c.summary,
            is_english := some c.is_english }) ∧
      (classify_news_batch_openai articles oc (some cs)).length =
        cs.length ∧
      (cs.length = articles.length →
        (classify_news_batch_openai articles oc (some cs)).length =
          articles.length)) := by
  constructor
  · unfold classify_news_batch_openai
    split <;> rfl
  · intro ha hoc
    unfold classify_news_batch_openai
    rw [if_neg (by simp [ha, hoc])]
    exact ⟨rfl, by rw [List.length_map], fun h => by rw [List.length_map, h]⟩

/-- Witness for C3 (amended) : a one-article batch with a one-entry
response comes back with length one. -/
theorem classify_shape_witness :
    (classify_news_batch_openai [sampleA] true
        (some [{ article_id := 1, importance_score := 8, summary := "s",
                 is_english := true }])).length =
      ([sampleA] : List RawArticle).length :=
  ((classify_shape [sampleA] true
      [{ article_id := 1, importance_score := 8, summary := "s",
         is_english := true }]).2 (by decide) rfl).2.2 rfl

end Marketlive
